import Mathlib

/-!
Shallow embedding of the dialer core of the RdeskSystem/Dialer repository.

Conventions of the embedding:
* time is modelled as a natural number of seconds (`datetime.utcnow()` becomes
  an explicit `now : Nat` argument; `timedelta(minutes = m)` becomes `m * 60`);
* Python dictionaries that preserve insertion order become association lists;
* Python `None` becomes `Option.none`; the truthiness test `if call_id:` on an
  optional integer is modelled by `optTruthy` (0 and `None` are falsy);
* fractional arithmetic (`answer_rate`, `predictive_ratio`, mean durations)
  is carried out in `ℚ`; Python `int(...)` truncation toward zero is `pyInt`;
* a Python statement that raises an uncaught exception inside the modelled
  function (such as the `ZeroDivisionError` in the pacing arithmetic) makes
  the modelled function return `none`.
-/

/-- In-memory `AgentStatus` dataclass from `src/dialer_service.py`. -/
structure AgentStatus where
  agent_id : Nat
  status : String
  current_call_id : Option Nat := none
  last_call_end : Option Nat := none
  calls_today : Nat := 0
  talk_time_today : Nat := 0
deriving DecidableEq, Repr

/-- Row of the `leads` table (`src/lead.py`), restricted to the columns the
dialer engine reads.  `phone_number` is kept optional because the selector
query tests `Lead.phone_number.isnot(None)`. -/
structure Lead where
  id : Nat
  campaign_id : Nat
  phone_number : Option String
  status : String
  priority : Int := 1
  last_contacted : Option Nat := none
  next_contact_date : Option Nat := none
deriving DecidableEq, Repr

/-- Row of the `calls` table (`src/call.py`), restricted to the columns the
dialer engine reads and writes. -/
structure Call where
  id : Nat
  lead_id : Nat
  campaign_id : Nat
  agent_id : Option Nat := none
  phone_number : Option String := none
  call_direction : String := "outbound"
  call_status : String
  started_at : Nat
  answered_at : Option Nat := none
  ended_at : Option Nat := none
  duration_seconds : Option Int := none
deriving DecidableEq, Repr

/-- Row of the `campaigns` table (`src/campaign.py`), restricted to the pacing
columns.  The decimal column `predictive_ratio` is modelled in `ℚ` and named
`pacing_ratio_val` here. -/
structure Campaign where
  id : Nat
  status : String := "active"
  dialer_mode : String
  max_attempts : Nat := 3
  retry_delay_minutes : Nat := 60
  pacing_ratio_val : ℚ := 12/10
  turbo_delay_seconds : Nat := 5
deriving DecidableEq, Repr

/-- Agent registry: the `DialerService.agent_statuses` dict, as an insertion
ordered association list from agent id to `AgentStatus`. -/
abbrev AgentReg := List (Nat × AgentStatus)

/-- Dictionary lookup on the agent registry. -/
def lookupA (reg : AgentReg) (a : Nat) : Option AgentStatus :=
  (reg.find? (fun p => p.1 == a)).map (fun p => p.2)

/-- In-place field update of the entry for agent `a` (Python attribute
assignment on the stored dataclass). -/
def setStatusA (reg : AgentReg) (a : Nat) (f : AgentStatus → AgentStatus) : AgentReg :=
  reg.map (fun p => if p.1 == a then (p.1, f p.2) else p)

/-- Python truthiness of an optional integer: `None` and `0` are falsy. -/
def optTruthy : Option Nat → Bool
  | none => false
  | some n => n != 0

/-- `DialerService.update_agent_status` (src/dialer_service.py lines 108-119):
create the `AgentStatus` on first reference or overwrite its `status`; a truthy
`call_id` is stored; otherwise moving to `available` clears `current_call_id`
and stamps `last_call_end = now`. -/
def update_agent_status (reg : AgentReg) (now agent_id : Nat) (status : String)
    (call_id : Option Nat) : AgentReg :=
  let reg1 :=
    if (lookupA reg agent_id).isNone then
      reg ++ [(agent_id, { agent_id := agent_id, status := status })]
    else
      setStatusA reg agent_id (fun s => { s with status := status })
  if optTruthy call_id then
    setStatusA reg1 agent_id (fun s => { s with current_call_id := call_id })
  else if status == "available" then
    setStatusA reg1 agent_id
      (fun s => { s with current_call_id := none, last_call_end := some now })
  else
    reg1

/-- `DialerService.get_available_agents` (src/dialer_service.py lines 121-138):
walk the campaign's assigned agent ids in assignment order; a tracked agent is
kept iff its status is `available`; an untracked agent is lazily registered as
`available` and kept.  Returns the updated registry and the collected list. -/
def get_available_agents (reg : AgentReg) : List Nat → AgentReg × List Nat
  | [] => (reg, [])
  | a :: rest =>
    match lookupA reg a with
    | some s =>
      let r := get_available_agents reg rest
      if s.status == "available" then (r.1, a :: r.2) else (r.1, r.2)
    | none =>
      let reg1 := reg ++ [(a, { agent_id := a, status := "available" })]
      let r := get_available_agents reg1 rest
      (r.1, a :: r.2)

/-! ## Lead selector (`DialerService.get_next_lead`) -/

/-- Calls of the `calls` table belonging to one lead
(`Call.query.filter_by(lead_id = ...)`). -/
def callsForLead (calls : List Call) (lid : Nat) : List Call :=
  calls.filter (fun c => c.lead_id == lid)

/-- `order_by(Call.started_at.desc()).first()`: the first call with maximal
`started_at` (ties keep the earlier row, the order among ties being
unspecified by the query). -/
def latestCall (cs : List Call) : Option Call :=
  cs.foldl
    (fun acc c =>
      match acc with
      | none => some c
      | some b => if c.started_at > b.started_at then some c else acc)
    none

/-- First filter of `get_next_lead` (the SQL query, src/dialer_service.py
lines 147-151): same campaign, status in {new, callback, interested}, phone
number not NULL. -/
def leadQueryFilter (campaign_id : Nat) (l : Lead) : Bool :=
  l.campaign_id == campaign_id
    && (l.status == "new" || l.status == "callback" || l.status == "interested")
    && l.phone_number.isSome

/-- Second filter of `get_next_lead` (the Python loop, lines 153-166): fewer
calls than `max_attempts`, and when a prior call exists, the retry delay has
elapsed since the latest call started. -/
def leadRetryFilter (camp : Campaign) (calls : List Call) (now : Nat) (l : Lead) : Bool :=
  let cs := callsForLead calls l.id
  cs.length < camp.max_attempts
    && (if cs.length > 0 then
          match latestCall cs with
          | some last => !(now < last.started_at + camp.retry_delay_minutes * 60)
          | none => true
        else true)

/-- The `valid_leads` list built by `get_next_lead`, in the storage order of
the leads table. -/
def valid_leads (camp : Campaign) (leads : List Lead) (calls : List Call) (now : Nat) :
    List Lead :=
  ((leads.filter (leadQueryFilter camp.id)).filter (leadRetryFilter camp calls now))

/-- `DialerService.get_next_lead` (src/dialer_service.py lines 140-169):
returns `valid_leads[0]` if any (the concluding comment of the function notes
that prioritization "could be enhanced").  The campaign row is assumed found
(`Campaign.query.get` succeeded). -/
def get_next_lead (camp : Campaign) (leads : List Lead) (calls : List Call) (now : Nat) :
    Option Lead :=
  (valid_leads camp leads calls now).head?

/-! ## Engine originate primitive (`DialerService.initiate_call`) -/

/-- The portion of engine state read and written by `initiate_call`. -/
structure EngineState where
  reg : AgentReg
  leads : List Lead
  calls : List Call
  next_call_id : Nat
deriving DecidableEq, Repr

/-- `DialerService.initiate_call` (src/dialer_service.py lines 171-221).
`sip_ok` is the boolean returned by `sip_service.originate_call` (the AMI
submission outcome).  On success the call row stays `initiated` and the
lead's `last_contacted` is stamped; on submission failure the call row is
committed with status `failed`, the agent is reverted to `available`, and
`none` is returned. -/
def initiate_call (st : EngineState) (now campaign_id lead_id agent_id : Nat)
    (sip_ok : Bool) : EngineState × Option Nat :=
  match st.leads.find? (fun l => l.id == lead_id) with
  | none => (st, none)
  | some lead =>
    let cid := st.next_call_id
    let call : Call :=
      { id := cid, lead_id := lead_id, campaign_id := campaign_id,
        agent_id := some agent_id, phone_number := lead.phone_number,
        call_direction := "outbound", call_status := "initiated",
        started_at := now }
    let reg1 := update_agent_status st.reg now agent_id "on_call" (some cid)
    if sip_ok then
      ({ st with
          reg := reg1,
          calls := st.calls ++ [call],
          leads := st.leads.map
            (fun l => if l.id == lead_id then { l with last_contacted := some now } else l),
          next_call_id := cid + 1 },
       some cid)
    else
      ({ st with
          reg := update_agent_status reg1 now agent_id "available" none,
          calls := st.calls ++ [{ call with call_status := "failed" }],
          next_call_id := cid + 1 },
       none)

/-! ## Predictive pacing arithmetic (`PredictiveDialer`) -/

/-- One entry of `PredictiveDialer.call_history` as built by `_update_metrics`:
the outcome tag and `duration_seconds or 0`. -/
structure HistEntry where
  outcome : String
  duration : Int
deriving DecidableEq, Repr

/-- Python `int(...)` on a rational: truncation toward zero. -/
def pyInt (q : ℚ) : Int :=
  if q < 0 then -Int.floor (-q) else Int.floor q

/-- The `answer_rate` computed by `_calculate_calls_needed` (lines 439-443):
fraction of history entries with outcome `answered`, defaulting to 0.3 on an
empty history. -/
def historyAnswerRate (hist : List HistEntry) : ℚ :=
  if hist.isEmpty then 3/10
  else ((hist.filter (fun c => c.outcome == "answered")).length : ℚ) / (hist.length : ℚ)

/-- The `avg_call_duration` computed by `_calculate_calls_needed` (lines
446-450): mean duration of answered history entries with positive duration,
defaulting to 180 s. -/
def historyAvgDuration (hist : List HistEntry) : ℚ :=
  let answered := hist.filter (fun c => c.outcome == "answered" && decide (c.duration > 0))
  if answered.isEmpty then 180
  else ((answered.map (fun c => c.duration)).sum : ℚ) / (answered.length : ℚ)

/-- `PredictiveDialer._predict_agents_becoming_free` (lines 470-486): count the
registry entries that are `on_call` with a truthy `current_call_id` whose call
row exists and whose elapsed duration is at least 80% of `avg`. -/
def predict_agents_becoming_free (reg : AgentReg) (calls : List Call) (now : Nat)
    (avg : ℚ) : Nat :=
  (reg.filter
    (fun p =>
      p.2.status == "on_call" && optTruthy p.2.current_call_id
        && (match p.2.current_call_id with
            | none => false
            | some cid =>
              match calls.find? (fun c => c.id == cid) with
              | none => false
              | some call =>
                decide (((now : ℚ) - (call.started_at : ℚ)) ≥ avg * (8/10))))).length

/-- `PredictiveDialer._calculate_calls_needed` (lines 433-468).  Returns
`none` when the Python code raises `ZeroDivisionError` (non-empty history with
no answered entry makes `answer_rate` zero and the division
`total_agents * predictive_ratio / answer_rate` raise). -/
def calculate_calls_needed (hist : List HistEntry) (reg : AgentReg) (calls : List Call)
    (now : Nat) (available_agents : List Nat) (ratio_val : ℚ) : Option Int :=
  if available_agents.isEmpty then some 0
  else
    let answer_rate := historyAnswerRate hist
    let avg := historyAvgDuration hist
    let agents_becoming_free := predict_agents_becoming_free reg calls now avg
    let total_agents : Nat := available_agents.length + agents_becoming_free
    if answer_rate = 0 then none
    else
      let calls_needed := pyInt ((total_agents : ℚ) * ratio_val / answer_rate)
      let max_calls : Int := min ((available_agents.length : Int) * 3) 10
      some (max 0 (min calls_needed max_calls))

/-! ## AMI message dispatch (`AsteriskAMIClient._handle_message`) -/

/-- A parsed AMI message: the key/value map produced by `_parse_message`. -/
abbrev AmiMessage := List (String × String)

/-- Dictionary access `message.get(key)` on a parsed AMI message. -/
def amiGet (msg : AmiMessage) (key : String) : Option String :=
  (msg.find? (fun p => p.1 == key)).map (fun p => p.2)

/-- The dispatch-relevant state of `AsteriskAMIClient`: per-event subscriber
lists (handlers named by identifiers, in registration order) and the pending
response waiters keyed by ActionID. -/
structure AmiClientState where
  event_handlers : List (String × List Nat)
  response_handlers : List (String × Nat)
deriving DecidableEq, Repr

/-- Outcome of dispatching one message: the resulting client state, the event
subscribers the message was delivered to (in invocation order), and the
response waiter completed, if any. -/
structure DispatchResult where
  state : AmiClientState
  event_deliveries : List Nat
  completed_waiter : Option Nat
deriving DecidableEq, Repr

/-- `AsteriskAMIClient._handle_message` (src/sip_service.py lines 137-154):
a message carrying an `Event` key goes to the subscribers of that event type;
otherwise (`elif`) a message carrying an `ActionID` key pops and completes the
matching waiter, when one is pending. -/
def handle_message (st : AmiClientState) (msg : AmiMessage) : DispatchResult :=
  match amiGet msg "Event" with
  | some event_type =>
    { state := st,
      event_deliveries :=
        ((st.event_handlers.find? (fun p => p.1 == event_type)).map (fun p => p.2)).getD [],
      completed_waiter := none }
  | none =>
    match amiGet msg "ActionID" with
    | some action_id =>
      match st.response_handlers.find? (fun p => p.1 == action_id) with
      | some w =>
        { state := { st with
            response_handlers := st.response_handlers.filter (fun p => !(p.1 == action_id)) },
          event_deliveries := [],
          completed_waiter := some w.2 }
      | none => { state := st, event_deliveries := [], completed_waiter := none }
    | none => { state := st, event_deliveries := [], completed_waiter := none }

/-! ## Call state reconciliation on Hangup (`SipService._handle_hangup`) -/

/-- The per-call info dict stored in `SipService.active_calls`. -/
structure CallInfo where
  channel : String
  phone_number : String := ""
  agent_channel : String := ""
  action_id : String := ""
  started_at : Nat := 0
deriving DecidableEq, Repr

/-- The state of `SipService` read and written by the event reconcilers,
together with the persisted calls, the appended `CallEvent` rows (call id and
event type) and the broadcasts issued through `_notify_event_callbacks`
(event type and call id). -/
structure SipState where
  active_calls : List (Nat × CallInfo)
  calls : List Call
  events : List (Nat × String)
  broadcasts : List (String × Nat)
deriving DecidableEq, Repr

/-- `SipService._handle_hangup` (src/sip_service.py lines 432-467): on the
first active call whose channel matches the event's `Channel`, and provided
its call row exists, set the row to `completed` with `ended_at = now` and
`duration = ended_at - started_at`, append a `hangup` CallEvent, drop the
channel mapping, and broadcast `call_ended`.  With no `Channel` key, no
matching mapping, or no call row, nothing changes. -/
def handle_hangup (st : SipState) (now : Nat) (ev : AmiMessage) : SipState :=
  match amiGet ev "Channel" with
  | none => st
  | some channel =>
    match st.active_calls.find? (fun p => p.2.channel == channel) with
    | none => st
    | some entry =>
      match st.calls.find? (fun c => c.id == entry.1) with
      | none => st
      | some call =>
        let updated := { call with
          call_status := "completed",
          ended_at := some now,
          duration_seconds := some ((now : Int) - (call.started_at : Int)) }
        { active_calls := st.active_calls.filter (fun p => !(p.1 == entry.1)),
          calls := st.calls.map (fun c => if c.id == entry.1 then updated else c),
          events := st.events ++ [(entry.1, "hangup")],
          broadcasts := st.broadcasts ++ [("call_ended", entry.1)] }

/-- Combined state of the dialer engine's agent registry and the SIP service,
used to express what Hangup processing does and does not touch. -/
structure SystemState where
  agent_statuses : AgentReg
  sip : SipState
deriving DecidableEq, Repr

/-- Processing of an AMI `Hangup` event by the whole repository: the only
handler registered for `Hangup` is `SipService._handle_hangup`
(src/sip_service.py line 302), and no module of the repository registers a
`register_event_callback` subscriber, so the agent registry is not touched by
hangup processing. -/
def system_handle_hangup (st : SystemState) (now : Nat) (ev : AmiMessage) : SystemState :=
  { agent_statuses := st.agent_statuses, sip := handle_hangup st.sip now ev }

/-! ## Agent status facade (`src/dialer.py` route `update_agent_status`) -/

/-- Outcome of the HTTP facade `PUT /dialer/agent/status`. -/
inductive RouteResult where
  | ok (agent_id : Nat) (status : String)
  | err (code : String)
deriving DecidableEq, Repr

/-- The `update_agent_status` route (src/dialer.py lines 221-248): validate
the requested status against `['available', 'busy', 'offline']` and, when
valid, delegate unconditionally to `DialerService.update_agent_status` with no
call id, answering 200. -/
def update_agent_status_route (reg : AgentReg) (now agent_id : Nat) (status : String) :
    AgentReg × RouteResult :=
  if status == "available" || status == "busy" || status == "offline" then
    (update_agent_status reg now agent_id status none, RouteResult.ok agent_id status)
  else
    (reg, RouteResult.err "INVALID_STATUS")

/-! ## Spec-side definitions (for refinement comparison only)

These definitions follow the wording of the specification, not the source;
they exist to state the ordering clauses of the spec so they can be compared
with the behaviour of the source functions. -/

/-- Sort key of the spec's lead ordering clause, `next_contact_date` ascending
with nulls last: encode `some t` as `(0, t)` and `none` as `(1, 0)`. -/
def nullsLastKey : Option Nat → Nat × Nat
  | some t => (0, t)
  | none => (1, 0)

/-- Sort key of the spec's lead ordering clause, `last_contacted` ascending
with nulls first: encode `none` as `(0, 0)` and `some t` as `(1, t)`. -/
def nullsFirstKey : Option Nat → Nat × Nat
  | some t => (1, t)
  | none => (0, 0)

/-- Strict lexicographic comparison on `Nat × Nat`. -/
def pairLt (a b : Nat × Nat) : Prop :=
  a.1 < b.1 ∨ (a.1 = b.1 ∧ a.2 < b.2)

instance (a b : Nat × Nat) : Decidable (pairLt a b) :=
  inferInstanceAs (Decidable (a.1 < b.1 ∨ (a.1 = b.1 ∧ a.2 < b.2)))

/-- Modelled from the spec: lead `a` strictly precedes lead `b` in the order
`(priority desc, next_contact_date asc nulls last, last_contacted asc nulls
first, id asc)`. -/
def specLeadBefore (a b : Lead) : Prop :=
  a.priority > b.priority
    ∨ (a.priority = b.priority
        ∧ (pairLt (nullsLastKey a.next_contact_date) (nullsLastKey b.next_contact_date)
            ∨ (nullsLastKey a.next_contact_date = nullsLastKey b.next_contact_date
                ∧ (pairLt (nullsFirstKey a.last_contacted) (nullsFirstKey b.last_contacted)
                    ∨ (nullsFirstKey a.last_contacted = nullsFirstKey b.last_contacted
                        ∧ a.id < b.id)))))

instance (a b : Lead) : Decidable (specLeadBefore a b) :=
  inferInstanceAs (Decidable (_ ∨ (_ ∧ (_ ∨ (_ ∧ (_ ∨ (_ ∧ _)))))))

/-- The `last_call_end` sort key of an agent id under a registry (`nulls`
compared first, as the oldest-idle). -/
def lceKey (reg : AgentReg) (a : Nat) : Nat × Nat :=
  nullsFirstKey ((lookupA reg a).bind (fun s => s.last_call_end))

/-- Modelled from the spec: a list of agent ids is ordered by ascending
`last_call_end` under a registry (adjacent keys never strictly decrease). -/
def sortedByLastCallEnd (reg : AgentReg) : List Nat → Prop
  | [] => True
  | [_] => True
  | a :: b :: t => ¬ pairLt (lceKey reg b) (lceKey reg a) ∧ sortedByLastCallEnd reg (b :: t)

def sortedByLastCallEndDec (reg : AgentReg) :
    (l : List Nat) → Decidable (sortedByLastCallEnd reg l)
  | [] => inferInstanceAs (Decidable True)
  | [_] => inferInstanceAs (Decidable True)
  | _ :: b :: t =>
    @instDecidableAnd _ _ inferInstance (sortedByLastCallEndDec reg (b :: t))

instance (reg : AgentReg) (l : List Nat) : Decidable (sortedByLastCallEnd reg l) :=
  sortedByLastCallEndDec reg l

/-! ## Reachable registry states (for the agent-registry invariant claim)

The operations of the repository that mutate `DialerService.agent_statuses`
are: the HTTP facade (statuses `available`, `busy`, `offline`, no call id),
`get_available_agents` (lazy registration), and `initiate_call` (transient
`on_call` with the freshly flushed call id, reverted on submission failure).
Database call ids are positive (`db.Integer` primary keys start at 1). -/
inductive Reachable : AgentReg → Prop where
  | init : Reachable []
  | facade (reg : AgentReg) (now a : Nat) (s : String) :
      Reachable reg →
      (s = "available" ∨ s = "busy" ∨ s = "offline") →
      Reachable (update_agent_status reg now a s none)
  | avail_query (reg : AgentReg) (asg : List Nat) :
      Reachable reg →
      Reachable (get_available_agents reg asg).1
  | call_success (reg : AgentReg) (now a cid : Nat) :
      Reachable reg →
      cid ≠ 0 →
      Reachable (update_agent_status reg now a "on_call" (some cid))
  | call_failure (reg : AgentReg) (now a cid : Nat) :
      Reachable reg →
      cid ≠ 0 →
      Reachable (update_agent_status
        (update_agent_status reg now a "on_call" (some cid)) now a "available" none)

/-! ## Helper lemmas on the agent registry -/

lemma lookupA_nil (x : Nat) : lookupA [] x = none := rfl

lemma lookupA_cons (p : Nat × AgentStatus) (t : AgentReg) (x : Nat) :
    lookupA (p :: t) x = if p.1 = x then some p.2 else lookupA t x := by
  by_cases h : p.1 = x
  · simp [lookupA, List.find?, beq_iff_eq, h]
  · have hb : (p.1 == x) = false := by simp [beq_iff_eq, h]
    simp [lookupA, List.find?, hb, h]

lemma lookupA_append_single (reg : AgentReg) (a : Nat) (s : AgentStatus) (x : Nat) :
    lookupA (reg ++ [(a, s)]) x =
      match lookupA reg x with
      | some t => some t
      | none => if a = x then some s else none := by
  induction reg with
  | nil => simp [lookupA_nil, lookupA_cons]
  | cons p t ih =>
    by_cases h : p.1 = x
    · simp [lookupA_cons, h]
    · simpa [lookupA_cons, h] using ih

lemma setStatusA_cons (p : Nat × AgentStatus) (t : AgentReg) (a : Nat)
    (f : AgentStatus → AgentStatus) :
    setStatusA (p :: t) a f =
      (if p.1 = a then (p.1, f p.2) else p) :: setStatusA t a f := by
  by_cases h : p.1 = a <;> simp [setStatusA, h]

lemma lookupA_setStatusA_self (reg : AgentReg) (a : Nat) (f : AgentStatus → AgentStatus) :
    lookupA (setStatusA reg a f) a = (lookupA reg a).map f := by
  induction reg with
  | nil => rfl
  | cons p t ih =>
    rw [setStatusA_cons]
    by_cases h : p.1 = a
    · simp [lookupA_cons, h]
    · simp [lookupA_cons, h, ih]

lemma lookupA_setStatusA_ne (reg : AgentReg) (a : Nat) (f : AgentStatus → AgentStatus)
    (x : Nat) (hx : x ≠ a) :
    lookupA (setStatusA reg a f) x = lookupA reg x := by
  induction reg with
  | nil => rfl
  | cons p t ih =>
    rw [setStatusA_cons]
    have hax : a ≠ x := fun hc => hx hc.symm
    by_cases h : p.1 = a
    · have hpx : p.1 ≠ x := fun hc => hx (hc ▸ h)
      simp [lookupA_cons, h, hpx, hax, ih]
    · by_cases h2 : p.1 = x
      · simp [lookupA_cons, h, h2, hax, hx]
      · simp [lookupA_cons, h, h2, ih]

/-- The record stored for agent `a` after `update_agent_status`. -/
def updatedRecord (reg : AgentReg) (now a : Nat) (status : String) (ci : Option Nat) :
    AgentStatus :=
  let base :=
    match lookupA reg a with
    | none => ({ agent_id := a, status := status } : AgentStatus)
    | some s => { s with status := status }
  if optTruthy ci then { base with current_call_id := ci }
  else if status == "available" then
    { base with current_call_id := none, last_call_end := some now }
  else base

lemma lookupA_update_self (reg : AgentReg) (now a : Nat) (status : String)
    (ci : Option Nat) :
    lookupA (update_agent_status reg now a status ci) a =
      some (updatedRecord reg now a status ci) := by
  unfold update_agent_status updatedRecord
  cases h : lookupA reg a with
  | none =>
    have hbase : lookupA (reg ++ [(a, { agent_id := a, status := status })]) a =
        some { agent_id := a, status := status } := by
      simp [lookupA_append_single, h]
    by_cases hci : optTruthy ci
    · simp [h, hci, lookupA_setStatusA_self, hbase]
    · by_cases hav : status == "available"
      · simp [h, hci, hav, lookupA_setStatusA_self, hbase]
      · simp [h, hci, hav, hbase]
  | some s =>
    have hbase : lookupA (setStatusA reg a (fun t => { t with status := status })) a =
        some { s with status := status } := by
      simp [lookupA_setStatusA_self, h]
    by_cases hci : optTruthy ci
    · simp [h, hci, lookupA_setStatusA_self, hbase]
    · by_cases hav : status == "available"
      · simp [h, hci, hav, lookupA_setStatusA_self, hbase]
      · simp [h, hci, hav, hbase]

lemma lookupA_update_ne (reg : AgentReg) (now a : Nat) (status : String)
    (ci : Option Nat) (x : Nat) (hx : x ≠ a) :
    lookupA (update_agent_status reg now a status ci) x = lookupA reg x := by
  unfold update_agent_status
  have hax : a ≠ x := fun hc => hx hc.symm
  cases h : lookupA reg a with
  | none =>
    have hbase : lookupA (reg ++ [(a, { agent_id := a, status := status })]) x =
        lookupA reg x := by
      cases h2 : lookupA reg x with
      | none => simp [lookupA_append_single, h2, hax]
      | some t => simp [lookupA_append_single, h2]
    by_cases hci : optTruthy ci
    · simp [h, hci, lookupA_setStatusA_ne _ _ _ _ hx, hbase]
    · by_cases hav : status == "available"
      · simp [h, hci, hav, lookupA_setStatusA_ne _ _ _ _ hx, hbase]
      · simp [h, hci, hav, hbase]
  | some s =>
    have hbase : lookupA (setStatusA reg a (fun t => { t with status := status })) x =
        lookupA reg x := lookupA_setStatusA_ne _ _ _ _ hx
    by_cases hci : optTruthy ci
    · simp [h, hci, lookupA_setStatusA_ne _ _ _ _ hx, hbase]
    · by_cases hav : status == "available"
      · simp [h, hci, hav, lookupA_setStatusA_ne _ _ _ _ hx, hbase]
      · simp [h, hci, hav, hbase]

/-- Availability predicate implicitly used by `get_available_agents`: tracked
and `available`, or not tracked yet. -/
def availPred (reg : AgentReg) (a : Nat) : Bool :=
  match lookupA reg a with
  | none => true
  | some s => s.status == "available"

lemma availPred_append_fresh (reg : AgentReg) (b : Nat) (x : Nat) :
    availPred (reg ++ [(b, { agent_id := b, status := "available" })]) x =
      availPred reg x := by
  unfold availPred
  rw [lookupA_append_single]
  cases h : lookupA reg x with
  | some t => simp
  | none =>
    by_cases hbx : b = x
    · simp [hbx]
    · simp [hbx]

/-- The returned list of `get_available_agents` is the assignment list
filtered by availability against the incoming registry, in assignment
order. -/
lemma get_available_agents_snd (reg : AgentReg) (asg : List Nat) :
    (get_available_agents reg asg).2 = asg.filter (availPred reg) := by
  induction asg generalizing reg with
  | nil => rfl
  | cons a rest ih =>
    cases h : lookupA reg a with
    | some s =>
      by_cases hs : s.status == "available"
      · simp [get_available_agents, h, hs, ih, List.filter_cons, availPred]
      · simp [get_available_agents, h, hs, ih, List.filter_cons, availPred]
    | none =>
      have hfresh := ih (reg ++ [(a, { agent_id := a, status := "available" })])
      have hsame : rest.filter
          (availPred (reg ++ [(a, { agent_id := a, status := "available" })])) =
          rest.filter (availPred reg) :=
        List.filter_congr (fun x _ => availPred_append_fresh reg a x)
      simp [get_available_agents, h, hfresh, hsame, List.filter_cons, availPred]

/-- The registry after `get_available_agents`: each assigned untracked agent
is registered as `available`, everything else is untouched. -/
lemma get_available_agents_fst_lookup (reg : AgentReg) (asg : List Nat) (x : Nat) :
    lookupA (get_available_agents reg asg).1 x =
      match lookupA reg x with
      | some s => some s
      | none =>
        if x ∈ asg then some { agent_id := x, status := "available" } else none := by
  induction asg generalizing reg with
  | nil => cases h : lookupA reg x <;> simp [get_available_agents, h]
  | cons a rest ih =>
    cases h : lookupA reg a with
    | some s =>
      have hx := ih reg
      rw [show (get_available_agents reg (a :: rest)).1 =
            (get_available_agents reg rest).1 by
          by_cases hs : s.status == "available" <;>
            simp [get_available_agents, h, hs]]
      cases h2 : lookupA reg x with
      | some t => simp [h2] at hx ⊢; exact hx
      | none =>
        have hax : a ≠ x := fun hc => by rw [hc] at h; rw [h] at h2; cases h2
        have hxa : x ≠ a := fun hc => hax hc.symm
        simp [h2, hxa] at hx ⊢
        exact hx
    | none =>
      have hx := ih (reg ++ [(a, { agent_id := a, status := "available" })])
      rw [show (get_available_agents reg (a :: rest)).1 =
            (get_available_agents
              (reg ++ [(a, { agent_id := a, status := "available" })]) rest).1 by
          simp [get_available_agents, h]]
      rw [lookupA_append_single] at hx
      cases h2 : lookupA reg x with
      | some t => simp [h2] at hx ⊢; exact hx
      | none =>
        by_cases hax : a = x
        · subst hax
          simp [h2] at hx ⊢
          exact hx
        · have hxa : x ≠ a := fun hc => hax hc.symm
          simp [h2, hax, hxa] at hx ⊢
          exact hx

lemma head?_filter_eq_find? {α : Type} (p : α → Bool) (l : List α) :
    (l.filter p).head? = l.find? p := by
  induction l with
  | nil => rfl
  | cons a t ih =>
    by_cases h : p a
    · simp [List.filter_cons, List.find?, h]
    · simp [List.filter_cons, List.find?, h, ih]

lemma find?_map_keyed_update (calls : List Call) (cid : Nat) (u : Call)
    (hu : u.id = cid) (hfound : (calls.find? (fun c => c.id == cid)).isSome) :
    ((calls.map (fun c => if c.id == cid then u else c)).find?
      (fun c => c.id == cid)) = some u := by
  induction calls with
  | nil => simp [List.find?] at hfound
  | cons c t ih =>
    by_cases h : c.id = cid
    · have hcb : (c.id == cid) = true := by simp [beq_iff_eq, h]
      have hmap : (if (c.id == cid : Bool) then u else c) = u := by simp [hcb]
      simp only [List.map_cons, hmap]
      rw [List.find?_cons_of_pos _ (by simp [beq_iff_eq, hu])]
    · have hcb : (c.id == cid) = false := by simp [beq_iff_eq, h]
      have hmap : (if (c.id == cid : Bool) then u else c) = c := by simp [hcb]
      simp only [List.map_cons, hmap]
      rw [List.find?_cons_of_neg _ (by simp [hcb])]
      apply ih
      have h2 := hfound
      rw [List.find?_cons_of_neg _ (by simp [hcb])] at h2
      exact h2

lemma find?_filter {α : Type} (q r : α → Bool) (l : List α) :
    (l.filter q).find? r = l.find? (fun a => q a && r a) := by
  induction l with
  | nil => rfl
  | cons a t ih =>
    by_cases hq : q a
    · by_cases hr : r a
      · simp [List.filter_cons, hq, List.find?, hr]
      · simp [List.filter_cons, hq, List.find?, hr, ih]
    · simp [List.filter_cons, hq, List.find?, ih]

lemma pyInt_eq_floor (q : ℚ) (h : 0 ≤ q) : pyInt q = Int.floor q := by
  unfold pyInt
  rw [if_neg (not_lt.2 h)]

lemma historyAnswerRate_pos (hist : List HistEntry)
    (h : hist = [] ∨ ∃ e ∈ hist, e.outcome = "answered") :
    0 < historyAnswerRate hist := by
  unfold historyAnswerRate
  rcases h with h | ⟨e, he, hout⟩
  · subst h; norm_num
  · have hne : hist ≠ [] := fun hc => by subst hc; cases he
    have hempty : hist.isEmpty = false := by
      cases hist with
      | nil => cases he
      | cons a t => rfl
    rw [hempty]
    have hmem : e ∈ hist.filter (fun c => c.outcome == "answered") :=
      List.mem_filter.2 ⟨he, by simp [hout]⟩
    have h1 : 0 < (hist.filter (fun c => c.outcome == "answered")).length :=
      List.length_pos.2 (fun hc => by rw [hc] at hmem; cases hmem)
    have h2 : 0 < hist.length := List.length_pos.2 hne
    simp only [Bool.false_eq_true, if_false]
    exact div_pos (by exact_mod_cast h1) (by exact_mod_cast h2)

lemma updatedRecord_status (reg : AgentReg) (now a : Nat) (st : String)
    (ci : Option Nat) : (updatedRecord reg now a st ci).status = st := by
  unfold updatedRecord
  cases h : lookupA reg a with
  | none =>
    by_cases hci : optTruthy ci
    · simp [hci]
    · by_cases hav : st == "available" <;> simp [hci, hav]
  | some s =>
    by_cases hci : optTruthy ci
    · simp [hci]
    · by_cases hav : st == "available" <;> simp [hci, hav]

lemma updatedRecord_avail_ci (reg : AgentReg) (now a : Nat) :
    (updatedRecord reg now a "available" none).current_call_id = none := by
  unfold updatedRecord
  cases h : lookupA reg a <;> simp [optTruthy]

lemma updatedRecord_avail_lce (reg : AgentReg) (now a : Nat) :
    (updatedRecord reg now a "available" none).last_call_end = some now := by
  unfold updatedRecord
  cases h : lookupA reg a <;> simp [optTruthy]

lemma updatedRecord_some_ci (reg : AgentReg) (now a : Nat) (st : String) (cid : Nat)
    (h : cid ≠ 0) :
    (updatedRecord reg now a st (some cid)).current_call_id = some cid := by
  unfold updatedRecord
  have hci : optTruthy (some cid) = true := by simp [optTruthy, h]
  cases h2 : lookupA reg a <;> simp [hci]

/-! ## Concrete fixtures -/

/-- A turbo campaign with the default pacing configuration. -/
def campT : Campaign := { id := 1, dialer_mode := "turbo" }

/-- An eligible lead with the lowest priority. -/
def leadLow : Lead :=
  { id := 1, campaign_id := 1, phone_number := some "555", status := "new", priority := 1 }

/-- An eligible lead with a higher priority and a later id. -/
def leadHigh : Lead :=
  { id := 2, campaign_id := 1, phone_number := some "556", status := "new", priority := 5 }

/-- A lead whose phone number is present but empty. -/
def leadEmptyPhone : Lead :=
  { id := 1, campaign_id := 1, phone_number := some "", status := "new", priority := 1 }

/-- Two available agents whose idle stamps are out of assignment order. -/
def regTwoIdle : AgentReg :=
  [(1, { agent_id := 1, status := "available", last_call_end := some 100 }),
   (2, { agent_id := 2, status := "available", last_call_end := some 50 })]

/-- One agent currently on call 7. -/
def regOnCall : AgentReg :=
  [(1, { agent_id := 1, status := "on_call", current_call_id := some 7 })]

/-! ## Claim theorems -/

/-- C2, counterexample: with two eligible leads stored in the order
(low priority, high priority), `get_next_lead` returns the low-priority lead
although the high-priority lead survives the filters and precedes it in the
spec's four-key order, so the returned lead is not maximal under that order. -/
theorem C2_counterexample :
    get_next_lead campT [leadLow, leadHigh] [] 0 = some leadLow
      ∧ leadHigh ∈ valid_leads campT [leadLow, leadHigh] [] 0
      ∧ leadHigh ≠ leadLow
      ∧ ¬ specLeadBefore leadLow leadHigh
      ∧ specLeadBefore leadHigh leadLow := by
  refine ⟨by decide, by decide, by decide, by decide, by decide⟩

/-- C2, amended: `get_next_lead` returns the first lead of the stored table
order that passes the eligibility filters; no ordering by (priority,
next_contact_date, last_contacted, id) is applied. -/
theorem C2_next_lead_is_first_eligible (camp : Campaign) (leads : List Lead)
    (calls : List Call) (now : Nat) :
    get_next_lead camp leads calls now =
      leads.find? (fun l => leadQueryFilter camp.id l && leadRetryFilter camp calls now l) := by
  unfold get_next_lead valid_leads
  rw [head?_filter_eq_find?, find?_filter]

/-- C5, counterexample: a lead whose phone number is the empty string passes
the selector's `isnot(None)` filter and is returned, refuting the claim that
every returned lead has a non-empty phone. -/
theorem C5_counterexample :
    get_next_lead campT [leadEmptyPhone] [] 0 = some leadEmptyPhone
      ∧ leadEmptyPhone.phone_number = some "" := by
  refine ⟨by decide, by decide⟩

/-- C5, amended: every lead returned by `get_next_lead` has status in
{new, callback, interested}, a non-NULL (possibly empty) phone number, fewer
recorded calls than `max_attempts`, and, when at least one prior call exists,
the retry delay has elapsed since the latest call started. -/
theorem C5_returned_lead_passes_filters (camp : Campaign) (leads : List Lead)
    (calls : List Call) (now : Nat) (l : Lead)
    (h : get_next_lead camp leads calls now = some l) :
    l.campaign_id = camp.id
      ∧ (l.status = "new" ∨ l.status = "callback" ∨ l.status = "interested")
      ∧ l.phone_number ≠ none
      ∧ (callsForLead calls l.id).length < camp.max_attempts
      ∧ ((callsForLead calls l.id).length > 0 →
          ∀ last, latestCall (callsForLead calls l.id) = some last →
            last.started_at + camp.retry_delay_minutes * 60 ≤ now) := by
  unfold get_next_lead valid_leads at h
  have hmem : l ∈ (leads.filter (leadQueryFilter camp.id)).filter
      (leadRetryFilter camp calls now) := by
    cases hl : (leads.filter (leadQueryFilter camp.id)).filter
        (leadRetryFilter camp calls now) with
    | nil => rw [hl] at h; cases h
    | cons x t =>
      rw [hl] at h
      injection h with h
      rw [← h]
      exact List.mem_cons_self x t
  have h2 := List.mem_filter.1 hmem
  have h3 := List.mem_filter.1 h2.1
  have hq := h3.2
  have hr := h2.2
  unfold leadQueryFilter at hq
  unfold leadRetryFilter at hr
  simp only [Bool.and_eq_true, Bool.or_eq_true, beq_iff_eq, Option.isSome_iff_exists,
    decide_eq_true_eq] at hq hr
  refine ⟨hq.1.1, or_assoc.mp hq.1.2, ?_, hr.1, ?_⟩
  · obtain ⟨v, hv⟩ := hq.2
    simp [hv]
  · intro hpos last hlast
    rcases hr with ⟨-, hcool⟩
    rw [if_pos (by exact_mod_cast hpos)] at hcool
    rw [hlast] at hcool
    simp only [Bool.not_eq_eq_eq_not, Bool.not_true, decide_eq_false_iff_not,
      not_lt] at hcool
    exact hcool

/-- C5, witness for the amended theorem, at a single eligible lead. -/
theorem C5_witness :
    (leadLow.status = "new" ∨ leadLow.status = "callback" ∨ leadLow.status = "interested")
      ∧ leadLow.phone_number ≠ none :=
  ⟨(C5_returned_lead_passes_filters campT [leadLow] [] 0 leadLow (by decide)).2.1,
   (C5_returned_lead_passes_filters campT [leadLow] [] 0 leadLow (by decide)).2.2.1⟩

/-- C8, counterexample: with two assigned available agents whose
`last_call_end` stamps decrease along the assignment order, the returned list
keeps the assignment order and is therefore not sorted by ascending
`last_call_end`. -/
theorem C8_counterexample :
    (get_available_agents regTwoIdle [1, 2]).2 = [1, 2]
      ∧ ¬ sortedByLastCallEnd regTwoIdle [1, 2]
      ∧ ¬ sortedByLastCallEnd (get_available_agents regTwoIdle [1, 2]).1 [1, 2] := by
  refine ⟨by decide, by decide, by decide⟩

/-- C8, amended: `get_available_agents` returns exactly the assigned agent
ids whose tracked status is `available` (an untracked assigned agent counting
as available), in assignment order — not ordered by `last_call_end`. -/
theorem C8_available_agents_assignment_order (reg : AgentReg) (asg : List Nat) :
    (get_available_agents reg asg).2 = asg.filter (availPred reg)
      ∧ ∀ a, a ∈ (get_available_agents reg asg).2 ↔ a ∈ asg ∧ availPred reg a := by
  refine ⟨get_available_agents_snd reg asg, fun a => ?_⟩
  rw [get_available_agents_snd]
  exact List.mem_filter

/-- C10: querying availability lazily registers every assigned untracked
agent as `available` and includes it in the returned list, and leaves the
state of every other agent unchanged. -/
theorem C10_availability_query_frame (reg : AgentReg) (asg : List Nat) (a : Nat) :
    (a ∈ asg → lookupA reg a = none →
        lookupA (get_available_agents reg asg).1 a
            = some { agent_id := a, status := "available" }
          ∧ a ∈ (get_available_agents reg asg).2)
      ∧ ((lookupA reg a).isSome ∨ a ∉ asg →
          lookupA (get_available_agents reg asg).1 a = lookupA reg a) := by
  constructor
  · intro hmem hnone
    constructor
    · rw [get_available_agents_fst_lookup]
      simp [hnone, hmem]
    · rw [get_available_agents_snd]
      exact List.mem_filter.2 ⟨hmem, by simp [availPred, hnone]⟩
  · intro h
    rw [get_available_agents_fst_lookup]
    cases h2 : lookupA reg a with
    | some s => rfl
    | none =>
      rcases h with h | h
      · rw [h2] at h; cases h
      · simp [h]

/-- C10, witness: one untracked assigned agent is registered and returned. -/
theorem C10_witness :
    lookupA (get_available_agents ([] : AgentReg) [5]).1 5
        = some { agent_id := 5, status := "available" }
      ∧ 5 ∈ (get_available_agents ([] : AgentReg) [5]).2 :=
  (C10_availability_query_frame [] [5] 5).1 (by decide) rfl

/-- C3, counterexample: the facade accepts moving an on-call agent to
`available` (answering ok, not `AGENT_BUSY`) and mutates the agent's state:
status becomes `available`, the call id is cleared, `last_call_end` is
stamped. -/
theorem C3_counterexample :
    (update_agent_status_route regOnCall 99 1 "available").2 = RouteResult.ok 1 "available"
      ∧ (update_agent_status_route regOnCall 99 1 "available").2 ≠ RouteResult.err "AGENT_BUSY"
      ∧ (update_agent_status_route regOnCall 99 1 "available").1 ≠ regOnCall
      ∧ lookupA (update_agent_status_route regOnCall 99 1 "available").1 1
          = some { agent_id := 1, status := "available", current_call_id := none,
                   last_call_end := some 99 } := by
  refine ⟨by decide, by decide, by decide, by decide⟩

/-- C3, amended: for an agent currently `on_call`, the facade call
`update_agent_status(agent, "available")` is accepted (no `AGENT_BUSY`
rejection exists in the code) and it sets the agent's status to `available`,
clears `current_call_id`, and stamps `last_call_end = now`. -/
theorem C3_facade_accepts_on_call_to_available (reg : AgentReg) (now a : Nat)
    (s : AgentStatus) (h : lookupA reg a = some s) (hs : s.status = "on_call") :
    (update_agent_status_route reg now a "available").2 = RouteResult.ok a "available"
      ∧ lookupA (update_agent_status_route reg now a "available").1 a =
          some { s with
                 status := "available", current_call_id := none,
                 last_call_end := some now } := by
  constructor
  · rfl
  · show lookupA (update_agent_status reg now a "available" none) a = _
    rw [lookupA_update_self]
    unfold updatedRecord
    simp [h, optTruthy]

/-- C3, witness for the amended theorem. -/
theorem C3_witness :
    (update_agent_status_route regOnCall 99 1 "available").2 = RouteResult.ok 1 "available"
      ∧ lookupA (update_agent_status_route regOnCall 99 1 "available").1 1 =
          some { agent_id := 1, status := "available", current_call_id := none,
                 last_call_end := some 99 } :=
  C3_facade_accepts_on_call_to_available regOnCall 99 1
    { agent_id := 1, status := "on_call", current_call_id := some 7 } (by decide) rfl

/-- The AMI client state for the dispatch counterexample: one subscriber for
`Hangup` and one pending waiter for ActionID `a1`. -/
def amiStBoth : AmiClientState :=
  { event_handlers := [("Hangup", [10])], response_handlers := [("a1", 20)] }

/-- An event-style response: both an `Event` key and an `ActionID` key. -/
def msgBoth : AmiMessage := [("Event", "Hangup"), ("ActionID", "a1")]

/-- C9, counterexample: a message carrying both `Event` and an `ActionID`
matching a pending waiter is delivered to the event subscribers, the waiter is
not completed, and it stays pending — the opposite of the claimed
waiter-only dispatch. -/
theorem C9_counterexample :
    (handle_message amiStBoth msgBoth).event_deliveries = [10]
      ∧ (handle_message amiStBoth msgBoth).completed_waiter = none
      ∧ (handle_message amiStBoth msgBoth).state.response_handlers = [("a1", 20)] := by
  refine ⟨by decide, by decide, by decide⟩

/-- C9, amended: a message with an `Event` key is always delivered to the
subscribers of that event (waiters untouched, none completed), even when its
`ActionID` matches a pending waiter; only a message with an `ActionID` and no
`Event` key completes and removes the matching waiter. -/
theorem C9_event_branch_wins (st : AmiClientState) (msg : AmiMessage) :
    (∀ et, amiGet msg "Event" = some et →
        handle_message st msg =
          { state := st,
            event_deliveries :=
              ((st.event_handlers.find? (fun p => p.1 == et)).map (fun p => p.2)).getD [],
            completed_waiter := none })
      ∧ (amiGet msg "Event" = none → ∀ aid w, amiGet msg "ActionID" = some aid →
          st.response_handlers.find? (fun p => p.1 == aid) = some w →
          handle_message st msg =
            { state := { st with response_handlers :=
                st.response_handlers.filter (fun p => !(p.1 == aid)) },
              event_deliveries := [],
              completed_waiter := some w.2 }) := by
  constructor
  · intro et h
    simp [handle_message, h]
  · intro h aid w h2 h3
    simp [handle_message, h, h2, h3]

/-- C9, witness for the amended theorem, at the two-key message. -/
theorem C9_witness :
    handle_message amiStBoth msgBoth =
      { state := amiStBoth, event_deliveries := [10], completed_waiter := none } :=
  (C9_event_branch_wins amiStBoth msgBoth).1 "Hangup" rfl

/-- C6: when the AMI `Originate` submission fails, `initiate_call` returns
none, commits the created Call row with terminal status `failed` (it stays in
the call history), reverts the agent to `available` (clearing the call id and
stamping `last_call_end`), and leaves every lead — in particular
`last_contacted` — untouched. -/
theorem C6_originate_failure (st : EngineState) (now campaign_id lead_id agent_id : Nat)
    (lead : Lead) (hlead : st.leads.find? (fun l => l.id == lead_id) = some lead) :
    (initiate_call st now campaign_id lead_id agent_id false).2 = none
      ∧ (initiate_call st now campaign_id lead_id agent_id false).1.calls =
          st.calls ++
            [{ id := st.next_call_id, lead_id := lead_id, campaign_id := campaign_id,
               agent_id := some agent_id, phone_number := lead.phone_number,
               call_direction := "outbound", call_status := "failed",
               started_at := now }]
      ∧ (lookupA (initiate_call st now campaign_id lead_id agent_id false).1.reg
            agent_id).map (fun s => (s.status, s.current_call_id, s.last_call_end)) =
          some ("available", none, some now)
      ∧ (initiate_call st now campaign_id lead_id agent_id false).1.leads = st.leads := by
  unfold initiate_call
  rw [hlead]
  refine ⟨rfl, rfl, ?_, rfl⟩
  show (lookupA (update_agent_status
      (update_agent_status st.reg now agent_id "on_call" (some st.next_call_id))
      now agent_id "available" none) agent_id).map _ = _
  rw [lookupA_update_self]
  simp [updatedRecord_status, updatedRecord_avail_ci, updatedRecord_avail_lce]

/-- The engine state for the originate-failure witness: one available agent
and one eligible lead. -/
def stEng : EngineState :=
  { reg := [(3, { agent_id := 3, status := "available" })],
    leads := [leadLow], calls := [], next_call_id := 1 }

/-- C6, witness at a concrete engine state. -/
theorem C6_witness :
    (initiate_call stEng 77 1 1 3 false).2 = none
      ∧ (initiate_call stEng 77 1 1 3 false).1.leads = stEng.leads :=
  ⟨(C6_originate_failure stEng 77 1 1 3 leadLow (by decide)).1,
   (C6_originate_failure stEng 77 1 1 3 leadLow (by decide)).2.2.2⟩

/-- A registry reached by a successful originate for agent 1 (call 9)
followed by the facade moving the agent to `busy`: the call id survives. -/
def regBusyKeepsCall : AgentReg :=
  update_agent_status (update_agent_status [] 5 1 "on_call" (some 9)) 6 1 "busy" none

/-- C7, counterexample: a reachable registry state in which agent 1 has a
non-null `current_call_id` while its status is `busy`, not `on_call` — the
facade transition out of `on_call` does not clear the call id, refuting the
claimed iff. -/
theorem C7_counterexample :
    Reachable regBusyKeepsCall
      ∧ lookupA regBusyKeepsCall 1 =
          some { agent_id := 1, status := "busy", current_call_id := some 9 }
      ∧ (some 9 : Option Nat) ≠ none
      ∧ "busy" ≠ "on_call" := by
  refine ⟨?_, by decide, by decide, by decide⟩
  exact Reachable.facade _ 6 1 "busy"
    (Reachable.call_success [] 5 1 9 Reachable.init (by decide))
    (Or.inr (Or.inl rfl))

/-- C7, amended: over all reachable registry states, an agent whose status is
`on_call` has a non-null `current_call_id`; the converse direction of the
claimed iff fails (see the counterexample). -/
theorem C7_on_call_has_call_id (reg : AgentReg) (h : Reachable reg) :
    ∀ a s, lookupA reg a = some s → s.status = "on_call" → s.current_call_id ≠ none := by
  induction h with
  | init =>
    intro a s hs
    simp [lookupA_nil] at hs
  | facade reg now b st hreach hst ih =>
    intro x s hx hs
    by_cases hxb : x = b
    · subst hxb
      rw [lookupA_update_self] at hx
      injection hx with hx
      rw [← hx] at hs
      rw [updatedRecord_status] at hs
      rcases hst with h1 | h1 | h1 <;> rw [h1] at hs <;> exact absurd hs (by decide)
    · rw [lookupA_update_ne _ _ _ _ _ _ hxb] at hx
      exact ih x s hx hs
  | avail_query reg asg hreach ih =>
    intro x s hx hs
    rw [get_available_agents_fst_lookup] at hx
    cases h2 : lookupA reg x with
    | some t =>
      rw [h2] at hx
      injection hx with hx
      exact ih x s (by rw [h2, hx]) hs
    | none =>
      rw [h2] at hx
      by_cases hmem : x ∈ asg
      · rw [if_pos hmem] at hx
        injection hx with hx
        rw [← hx] at hs
        simp at hs
      · rw [if_neg hmem] at hx
        cases hx
  | call_success reg now b cid hreach hcid ih =>
    intro x s hx hs
    by_cases hxb : x = b
    · subst hxb
      rw [lookupA_update_self] at hx
      injection hx with hx
      rw [← hx]
      rw [updatedRecord_some_ci _ _ _ _ _ hcid]
      simp
    · rw [lookupA_update_ne _ _ _ _ _ _ hxb] at hx
      exact ih x s hx hs
  | call_failure reg now b cid hreach hcid ih =>
    intro x s hx hs
    by_cases hxb : x = b
    · subst hxb
      rw [lookupA_update_self] at hx
      injection hx with hx
      rw [← hx] at hs
      rw [updatedRecord_status] at hs
      exact absurd hs (by decide)
    · rw [lookupA_update_ne _ _ _ _ _ _ hxb,
        lookupA_update_ne _ _ _ _ _ _ hxb] at hx
      exact ih x s hx hs

/-- A registry reached by a single successful originate for agent 1. -/
def regReachOnCall : AgentReg := update_agent_status [] 5 1 "on_call" (some 9)

/-- C7, witness for the amended theorem. -/
theorem C7_witness : (some 9 : Option Nat) ≠ none :=
  C7_on_call_has_call_id regReachOnCall
    (Reachable.call_success [] 5 1 9 Reachable.init (by decide)) 1
    { agent_id := 1, status := "on_call", current_call_id := some 9 }
    (by decide) rfl

/-- C4, amended, part of the reconciliation contract of the Hangup handler:
with a `Channel` key resolving (uniquely) to an in-flight call whose row
exists, one processing run completes the call (`ended_at = now`,
`duration = ended_at - started_at`), drops the channel mapping, appends one
`hangup` CallEvent and one `call_ended` broadcast; the agent registry is NOT
touched (no agent is reverted to `available`); and replaying the identical
event is a no-op, so exactly one terminal transition and one broadcast result
in total. -/
theorem C4_hangup_once (st : SystemState) (now now2 : Nat) (ev : AmiMessage)
    (ch : String) (cid : Nat) (info : CallInfo) (call : Call)
    (hch : amiGet ev "Channel" = some ch)
    (hfind : st.sip.active_calls.find? (fun p => p.2.channel == ch) = some (cid, info))
    (hcall : st.sip.calls.find? (fun c => c.id == cid) = some call)
    (huniq : ∀ p ∈ st.sip.active_calls, p.2.channel = ch → p.1 = cid) :
    ((system_handle_hangup st now ev).sip.calls.find? (fun c => c.id == cid) =
        some { call with
               call_status := "completed", ended_at := some now,
               duration_seconds := some ((now : Int) - (call.started_at : Int)) })
      ∧ (∀ p ∈ (system_handle_hangup st now ev).sip.active_calls, p.1 ≠ cid)
      ∧ (system_handle_hangup st now ev).sip.broadcasts =
          st.sip.broadcasts ++ [("call_ended", cid)]
      ∧ (system_handle_hangup st now ev).sip.events = st.sip.events ++ [(cid, "hangup")]
      ∧ (system_handle_hangup st now ev).agent_statuses = st.agent_statuses
      ∧ system_handle_hangup (system_handle_hangup st now ev) now2 ev =
          system_handle_hangup st now ev := by
  have hid : call.id = cid := by
    have := List.find?_some hcall
    simpa [beq_iff_eq] using this
  have hpost : system_handle_hangup st now ev =
      { agent_statuses := st.agent_statuses,
        sip :=
          { active_calls := st.sip.active_calls.filter (fun p => !(p.1 == cid)),
            calls := st.sip.calls.map (fun c =>
              if c.id == cid then
                { call with
                  call_status := "completed", ended_at := some now,
                  duration_seconds := some ((now : Int) - (call.started_at : Int)) }
              else c),
            events := st.sip.events ++ [(cid, "hangup")],
            broadcasts := st.sip.broadcasts ++ [("call_ended", cid)] } } := by
    unfold system_handle_hangup handle_hangup
    simp only [hch, hfind, hcall]
  refine ⟨?_, ?_, ?_, ?_, ?_, ?_⟩
  · rw [hpost]
    exact find?_map_keyed_update st.sip.calls cid _ (by simp [hid]) (by rw [hcall]; rfl)
  · rw [hpost]
    intro p hp
    have h2 := List.mem_filter.1 hp
    simpa using h2.2
  · rw [hpost]
  · rw [hpost]
  · rw [hpost]
  · have hnone : ((st.sip.active_calls.filter (fun p => !(p.1 == cid))).find?
        (fun p => p.2.channel == ch)) = none := by
      apply List.find?_eq_none.2
      intro p hp
      have h2 := List.mem_filter.1 hp
      have hne : p.1 ≠ cid := by simpa using h2.2
      intro hc
      exact hne (huniq p h2.1 (by simpa [beq_iff_eq] using hc))
    rw [hpost]
    unfold system_handle_hangup handle_hangup
    simp only [hch, hnone]

/-- Call row 5, in flight (answered, not yet ended). -/
def callFive : Call :=
  { id := 5, lead_id := 1, campaign_id := 1, call_status := "answered", started_at := 10 }

/-- A system state with agent 1 on call 5 and call 5 in flight on one
channel. -/
def sysH : SystemState :=
  { agent_statuses := [(1, { agent_id := 1, status := "on_call", current_call_id := some 5 })],
    sip :=
      { active_calls := [(5, { channel := "SIP/u/123" })],
        calls := [callFive], events := [], broadcasts := [] } }

/-- An AMI `Hangup` event for call 5's channel. -/
def evHang : AmiMessage := [("Event", "Hangup"), ("Channel", "SIP/u/123")]

/-- C4, counterexample: processing the Hangup event completes the call and
broadcasts `call_ended`, but the owning agent (agent 1, on call 5) is NOT
reverted to `available` — no handler in the repository touches the agent
registry on hangup, so the agent stays `on_call`. -/
theorem C4_counterexample :
    (system_handle_hangup sysH 52 evHang).sip.calls.map (fun c => c.call_status)
        = ["completed"]
      ∧ (system_handle_hangup sysH 52 evHang).sip.broadcasts = [("call_ended", 5)]
      ∧ lookupA (system_handle_hangup sysH 52 evHang).agent_statuses 1 =
          some { agent_id := 1, status := "on_call", current_call_id := some 5 }
      ∧ "on_call" ≠ "available" := by
  refine ⟨by decide, by decide, by decide, by decide⟩

/-- C4, witness for the amended theorem, at the concrete hangup scenario. -/
theorem C4_witness :
    (system_handle_hangup sysH 52 evHang).sip.broadcasts = [("call_ended", 5)]
      ∧ system_handle_hangup (system_handle_hangup sysH 52 evHang) 99 evHang =
          system_handle_hangup sysH 52 evHang :=
  ⟨(C4_hangup_once sysH 52 99 evHang "SIP/u/123" 5 { channel := "SIP/u/123" } callFive
      (by decide) (by decide) (by decide) (by decide)).2.2.1,
   (C4_hangup_once sysH 52 99 evHang "SIP/u/123" 5 { channel := "SIP/u/123" } callFive
      (by decide) (by decide) (by decide) (by decide)).2.2.2.2.2⟩

/-- C1, counterexample: with a non-empty recent history in which no call was
answered, the computed answer rate is zero and the pacing arithmetic raises
`ZeroDivisionError` (modelled as `none`): `calls_needed` is NOT a defined
integer in that case, the predictive cycle aborts instead. -/
theorem C1_counterexample :
    historyAnswerRate [{ outcome := "not_answered", duration := 0 }] = 0
      ∧ calculate_calls_needed [{ outcome := "not_answered", duration := 0 }]
          [] [] 0 [1] (6/5) = none := by
  have h : ("not_answered" == "answered") = false := by decide
  constructor
  · norm_num [historyAnswerRate, h]
  · norm_num [calculate_calls_needed, historyAnswerRate, h]

/-- C1, amended: whenever the answer rate is non-zero (empty history, or some
answered call in the history), `calls_needed` is defined and equals
⌊(available + imminent) × ratio / answer_rate⌋ capped at
min(3 × available, 10) and clamped below at 0, hence lies in
[0, min(3 × available, 10)]; with a non-empty all-unanswered history the
computation is undefined (see the counterexample). -/
theorem C1_calls_needed_formula (hist : List HistEntry) (reg : AgentReg)
    (calls : List Call) (now : Nat) (avail : List Nat) (r : ℚ)
    (hne : avail ≠ []) (hr : 0 ≤ r)
    (hhist : hist = [] ∨ ∃ e ∈ hist, e.outcome = "answered") :
    calculate_calls_needed hist reg calls now avail r =
        some (max 0 (min
          (Int.floor ((((avail.length : ℚ) +
              (predict_agents_becoming_free reg calls now (historyAvgDuration hist) : ℚ)))
            * r / historyAnswerRate hist))
          (min ((avail.length : Int) * 3) 10)))
      ∧ ∀ n : Int, calculate_calls_needed hist reg calls now avail r = some n →
          0 ≤ n ∧ n ≤ min ((avail.length : Int) * 3) 10 := by
  have hrate : 0 < historyAnswerRate hist := historyAnswerRate_pos hist hhist
  have hempty : avail.isEmpty = false := by
    cases avail with
    | nil => exact absurd rfl hne
    | cons a t => rfl
  have hmain : calculate_calls_needed hist reg calls now avail r =
      some (max 0 (min
        (Int.floor ((((avail.length : ℚ) +
            (predict_agents_becoming_free reg calls now (historyAvgDuration hist) : ℚ)))
          * r / historyAnswerRate hist))
        (min ((avail.length : Int) * 3) 10))) := by
    unfold calculate_calls_needed
    rw [hempty]
    simp only [Bool.false_eq_true, if_false]
    rw [if_neg hrate.ne']
    have hval : (0 : ℚ) ≤ ((avail.length + predict_agents_becoming_free reg calls now
        (historyAvgDuration hist) : ℕ) : ℚ) * r / historyAnswerRate hist :=
      div_nonneg (mul_nonneg (by positivity) hr) hrate.le
    rw [pyInt_eq_floor _ hval]
    congr 2
    push_cast
    ring_nf
  refine ⟨hmain, fun n hn => ?_⟩
  rw [hmain] at hn
  injection hn with hn
  have hcap : (0 : Int) ≤ min ((avail.length : Int) * 3) 10 := by
    have hlen : 1 ≤ (avail.length : Int) := by
      cases avail with
      | nil => exact absurd rfl hne
      | cons a t => simp
    refine le_min (by linarith) (by norm_num)
  constructor
  · rw [← hn]; exact le_max_left 0 _
  · rw [← hn]
    exact max_le hcap (min_le_right _ _)

/-- C1, witness for the amended theorem: empty history, two available agents,
ratio 1.2 — the default answer rate 0.3 yields 8, capped at 6, within
[0, min(6, 10)]. -/
theorem C1_witness :
    (0 : Int) ≤ 6 ∧ (6 : Int) ≤ min ((([1, 2] : List Nat).length : Int) * 3) 10 :=
  (C1_calls_needed_formula [] [] [] 0 [1, 2] (6/5) (by decide) (by norm_num)
      (Or.inl rfl)).2 6
    (by norm_num [calculate_calls_needed, historyAnswerRate, historyAvgDuration,
      predict_agents_becoming_free, pyInt])
